import Mathlib

/-!
Verification of the text-quality pipeline and retry protocol of the
article-generation repository.

The Python sources are shallowly embedded:

* `src/src/services/text_analyzer.py` (`TextAnalyzer`): readability scoring,
  keyword density, overused-word detection, short-text cutoff.
* `src/src/services/quality_checker.py` (`ArticleQualityChecker`): structure
  analysis, keyword extraction and the comprehensive quality check.
* `src/src/services/lm_service.py` (`LanguageModelService.generate_text`) and
  `src/main.py` (`ArticleGenerator.call_lm_studio_with_retry`): the retry
  loops around the generation backend.

Python floats are modelled as rationals; Python strings as Lean `String`
(lists of unicode characters); dictionaries keyed in insertion order as
association lists in first-insertion order.  The external `textstat` library
and the HTTP stack are not part of the repository: their outcomes enter the
embedding as explicit parameters (`Except`-valued hooks, attempt-outcome
functions), so that the repository's own control flow is the object of proof.
-/

/-! ## Character and tokenisation layer

Models of the Python primitives used by the analyzers: `str.lower`,
`str.split`, `str.strip`, `re.findall(r"\b\w+\b", ...)`, `re.split`.
-/

/-- Model of Python's `\w` character class for the languages the repository
handles: ASCII alphanumerics, underscore, and basic Cyrillic letters. -/
def isWordChar (c : Char) : Bool :=
  c.isAlphanum || c = '_' || (0x400 ≤ c.toNat && c.toNat ≤ 0x4FF)

/-- Model of Python's `str.lower` on a single character: ASCII `A`-`Z`,
basic Cyrillic `А`-`Я`, `Ё`, and the Ukrainian letters `І Ї Є Ґ`. -/
def pyCharLower (c : Char) : Char :=
  if 'A' ≤ c ∧ c ≤ 'Z' then Char.ofNat (c.toNat + 32)
  else if 'А' ≤ c ∧ c ≤ 'Я' then Char.ofNat (c.toNat + 32)
  else if c = 'Ё' then 'ё'
  else if c = 'І' then 'і'
  else if c = 'Ї' then 'ї'
  else if c = 'Є' then 'є'
  else if c = 'Ґ' then 'ґ'
  else c

/-- Model of Python's `str.lower` on a string. -/
def pyLower (text : String) : List Char := text.data.map pyCharLower

/-- One left-to-right pass collecting the maximal runs of characters that
satisfy `keep`; `cur` is the reversed run in progress. -/
def runsOfAux (keep : Char → Bool) (cur : List Char) : List Char → List (List Char)
  | [] => if cur = [] then [] else [cur.reverse]
  | c :: cs =>
    if keep c then runsOfAux keep (c :: cur) cs
    else if cur = [] then runsOfAux keep cur cs
    else cur.reverse :: runsOfAux keep [] cs

/-- Maximal runs of characters satisfying `keep`; characters outside such
runs are discarded.  With `keep = not whitespace` this is Python's
`str.split()`; with `keep = isWordChar` it is `re.findall(r"\b\w+\b", s)`. -/
def runsOf (keep : Char → Bool) (l : List Char) : List (List Char) :=
  runsOfAux keep [] l

/-- Python `str.split()` with no separator: whitespace-delimited tokens. -/
def pySplit (l : List Char) : List String :=
  (runsOf (fun c => !c.isWhitespace) l).map (fun r => String.mk r)

/-- Python `str.strip()`: remove leading and trailing whitespace. -/
def pyStrip (l : List Char) : List Char :=
  ((l.dropWhile Char.isWhitespace).reverse.dropWhile Char.isWhitespace).reverse

/-- Net effect of `re.split(r"[.!?]+", text)` followed by stripping each
fragment and discarding the empty ones, as both analyzers do for sentence
segmentation. -/
def sentenceSegs (text : String) : List (List Char) :=
  ((runsOf (fun c => !(c = '.' || c = '!' || c = '?')) text.data).map pyStrip).filter
    (fun s => s ≠ [])

namespace TextAnalyzer

/-! ## `TextAnalyzer` (src/src/services/text_analyzer.py)

`html_report` (presentation-only rendering, `_generate_html_report`) is not
modelled; no checked property concerns it.
-/

/-- Result of `TextAnalyzer.analyze_text` (the `TextAnalysisResult`
dataclass, minus the rendered `html_report`). -/
structure TextAnalysisResult where
  readability_score : ℚ
  keyword_density : List (String × ℚ)
  overused_words : List String
deriving DecidableEq

/-- `TextAnalyzer.__init__`: `self.min_word_count = 300`. -/
def min_word_count : Nat := 300

/-- `TextAnalyzer._clean_html`: `re.sub(r"<[^>]+>", "", text)`.  A `<` that
is followed by at least one non-`>` character and then a `>` is removed
together with everything up to and including that `>`. -/
def clean_html_chars : List Char → List Char
  | [] => []
  | c :: rest =>
    if c = '<' ∧ rest.takeWhile (fun d => d ≠ '>') ≠ [] ∧
        rest.dropWhile (fun d => d ≠ '>') ≠ [] then
      clean_html_chars (rest.dropWhile (fun d => d ≠ '>')).tail
    else c :: clean_html_chars rest
termination_by l => l.length
decreasing_by
  · simp only [List.length_cons]
    exact Nat.lt_succ_of_le (le_trans ((List.tail_sublist _).length_le)
      ((List.dropWhile_sublist _).length_le))
  · simp

/-- `TextAnalyzer._clean_html` on a string. -/
def clean_html (text : String) : String := String.mk (clean_html_chars text.data)

/-- The core arithmetic of `TextAnalyzer._calculate_readability`
(text_analyzer.py lines 109-120): the three clamped sub-scores, their
weighted combination, the structure bonus, and the final clamp to `[0, 10]`.
Arguments are the raw complexity inputs: average sentence length, average
word length, the complex-word fraction, and the sentence count. -/
def readabilityFormula (avgSentLen avgWordLen complexFrac : ℚ) (nSentences : Nat) : ℚ :=
  let sentence_score := max 0 (10 - avgSentLen / 5)
  let word_score := max 0 (10 - avgWordLen)
  let complexity_score := max 0 (10 - complexFrac * 30)
  let final0 := sentence_score * (3/10) + word_score * (3/10) + complexity_score * (4/10)
  let final1 := if 5 < nSentences then final0 + 2 else final0
  max 0 (min 10 final1)

/-- `TextAnalyzer._calculate_readability`.  The Python body is wrapped in a
`try/except` returning `0.0`; the embedded computation is total, so only the
explicit zero-sentences/zero-words guard remains. -/
def calculate_readability (text : String) : ℚ :=
  let sentences := sentenceSegs text
  let words := pySplit text.data
  if sentences = [] ∨ words = [] then 0
  else
    readabilityFormula
      ((words.length : ℚ) / (sentences.length : ℚ))
      (((words.map (fun w => w.length)).sum : ℚ) / (words.length : ℚ))
      (((words.filter (fun w => 6 < w.length)).length : ℚ) / (words.length : ℚ))
      sentences.length

/-- Cleaned tokens shared by `_analyze_keywords` and `_find_overused_words`:
`re.sub(r"[^\w\s]", "", text.lower()).split()`. -/
def cleanTokens (text : String) : List String :=
  pySplit ((pyLower text).filter (fun c => isWordChar c || c.isWhitespace))

end TextAnalyzer

/-! ## Insertion-ordered dictionaries

Python dictionaries (and `collections.Counter`) iterate their keys in first
insertion order.  A frequency dictionary built by a left-to-right pass over a
token list therefore lists each distinct token at its first occurrence.
`dedupFirst` models that key order; `firstIdx` gives the position of the
first occurrence of a token. -/

/-- Index of the first occurrence of `w` in `l` (length of `l` if absent). -/
def firstIdx (w : String) : List String → Nat
  | [] => 0
  | a :: l => if a = w then 0 else firstIdx w l + 1

/-- Distinct elements of the input in first-occurrence order, skipping
anything already listed in `seen`. -/
def dedupFirstAux (seen : List String) : List String → List String
  | [] => []
  | a :: l => if a ∈ seen then dedupFirstAux seen l else a :: dedupFirstAux (a :: seen) l

/-- Distinct elements in first-occurrence order: the key order of a Python
dict or `Counter` built by one pass over the list. -/
def dedupFirst (l : List String) : List String := dedupFirstAux [] l

/-- Stable insertion into a list sorted by non-increasing `cnt`: the new
element goes after every element of at least its count.  Folding this over a
key list models Python's stable `sorted(..., reverse=True)` by count, which
is what `Counter.most_common` performs. -/
def insertByCountDesc (cnt : String → Nat) (a : String) : List String → List String
  | [] => [a]
  | b :: l => if cnt b < cnt a then a :: b :: l else b :: insertByCountDesc cnt a l

/-- Stable sort by non-increasing `cnt` (model of `Counter.most_common`'s
ordering over the dictionary's keys). -/
def sortByCountDesc (cnt : String → Nat) (l : List String) : List String :=
  l.foldl (fun acc a => insertByCountDesc cnt a acc) []

namespace TextAnalyzer

/-- `TextAnalyzer._analyze_keywords`: frequencies of tokens longer than 3
characters, each normalised by the total token count (division by the length
of `words`, not of the filtered list). -/
def analyze_keywords (text : String) : List (String × ℚ) :=
  let words := cleanTokens text
  let keys := dedupFirst (words.filter (fun w => 3 < w.length))
  if 0 < words.length then
    keys.map (fun w => (w, (words.count w : ℚ) / (words.length : ℚ)))
  else []

/-- `TextAnalyzer._find_overused_words`: tokens longer than 3 characters
whose frequency strictly exceeds `total_words * 0.05`, where `total_words`
counts every cleaned token (short ones included). -/
def find_overused_words (text : String) : List String :=
  let words := cleanTokens text
  let keys := dedupFirst (words.filter (fun w => 3 < w.length))
  if 0 < words.length then
    keys.filter (fun w => (words.length : ℚ) * (5/100) < (words.count w : ℚ))
  else []

/-- `TextAnalyzer.analyze_text`: optional HTML stripping, the 300-word
cutoff, then readability, keyword density and overuse detection.  The
enclosing `try/except` never fires in the total embedding. -/
def analyze_text (text : String) (is_html : Bool) : TextAnalysisResult :=
  let text := if is_html then clean_html text else text
  let words := pySplit text.data
  if words.length < min_word_count then
    { readability_score := 0, keyword_density := [], overused_words := [] }
  else
    { readability_score := calculate_readability text
      keyword_density := analyze_keywords text
      overused_words := find_overused_words text }

/-- The overuse criterion exactly as the specification words it (spec §4.6
and §8): the token's frequency divided by the count of *filtered* tokens
(length greater than 3), for comparison with `find_overused_words`, which
divides by the count of all tokens. -/
def specFilteredDensity (text w : String) : ℚ :=
  let filtered := (cleanTokens text).filter (fun u => 3 < u.length)
  (filtered.count w : ℚ) / (filtered.length : ℚ)

end TextAnalyzer

namespace QualityChecker

/-! ## `ArticleQualityChecker` (src/src/services/quality_checker.py)

The readability sub-analysis calls the external `textstat` library; its
outcome (a Flesch score, or the exception the surrounding `try/except`
catches) enters as an `Except String ℚ` parameter.  Keyword extraction has
its own `try/except`; the possibility of an internal exception there enters
as an `Except String Unit` hook (`Except.ok ()` is the normal run).  The
structure analysis is pure regex code and cannot raise.  `bold_count`,
`list_item_count`, `smog_index`, `syllable_count`, `readability_level` and
the rendered HTML report are computed by the source but touched by no
checked property and are not modelled. -/

/-- `ArticleQualityChecker.__init__`: `self.min_word_count = 500`. -/
def min_word_count : Nat := 500

/-- `ArticleQualityChecker.__init__`: `self.min_readability = 5.0`. -/
def min_readability : ℚ := 5

/-- `ArticleQualityChecker.__init__`: `self.min_headings = 3`. -/
def min_headings : Nat := 3

/-- `ArticleQualityChecker.__init__`: `self.min_paragraphs = 5`. -/
def min_paragraphs : Nat := 5

/-- `ArticleQualityChecker.__init__`: `self.language_stop_words` (a set in
the source; only membership is ever used). -/
def stop_words (language : String) : List String :=
  if language = "ru" then
    ["и", "в", "на", "с", "по", "для", "от", "к", "за", "из", "о", "что", "как", "это"]
  else if language = "ua" then
    ["і", "в", "на", "з", "по", "для", "від", "до", "за", "із", "про", "що", "як", "це"]
  else []

/-- Structure metrics produced by `_analyze_structure` (the modelled part). -/
structure StructureMetrics where
  word_count : Nat
  sentence_count : Nat
  avg_sentence_length : ℚ
  paragraphs_count : Nat
  headings_count : Nat
deriving DecidableEq

/-- Split on the literal two-character separator `"\n\n"`, Python
`content.split("\n\n")` (empty fragments kept, as in Python). -/
def splitDoubleNewline : List Char → List (List Char)
  | [] => [[]]
  | [c] => [[c]]
  | c :: d :: rest =>
    if c = '\n' ∧ d = '\n' then [] :: splitDoubleNewline rest
    else
      match splitDoubleNewline (d :: rest) with
      | [] => [[c]]
      | s :: ss => (c :: s) :: ss

/-- A line matching the multiline regex `^#+\s+.+$`: a non-empty run of
`#`, then at least one whitespace character, then at least one further
character (the first post-`#` character must be whitespace and at least two
characters must follow the `#` run). -/
def isHeadingLine (line : List Char) : Bool :=
  let hashes := line.takeWhile (fun c => c = '#')
  let rest := line.dropWhile (fun c => c = '#')
  match hashes, rest with
  | _ :: _, a :: _ :: _ => a.isWhitespace
  | _, _ => false

/-- `ArticleQualityChecker._analyze_structure`: word count
(`re.findall(r"\b\w+\b", content.lower())`), sentence count
(`re.split(r"[.!?]+", ...)` stripped non-empty), average sentence length,
paragraph count (`content.split("\n\n")` stripped non-empty) and heading
count (`re.findall(r"^#+\s+.+$", content, re.MULTILINE)`). -/
def analyze_structure (content : String) : StructureMetrics :=
  let words := runsOf isWordChar (pyLower content)
  let sentences := sentenceSegs content
  let paragraphs := ((splitDoubleNewline content.data).map pyStrip).filter (fun p => p ≠ [])
  let headings := (content.data.splitOn '\n').filter isHeadingLine
  { word_count := words.length
    sentence_count := sentences.length
    avg_sentence_length :=
      if 0 < sentences.length then (words.length : ℚ) / (sentences.length : ℚ) else 0
    paragraphs_count := paragraphs.length
    headings_count := headings.length }

/-- `ArticleQualityChecker._analyze_readability`, reduced to the checked
part: the Flesch score delivered by `textstat`, or `0` when the call raised
and the `except` branch set `result["readability_score"] = 0`. -/
def analyze_readability (fleschResult : Except String ℚ) : ℚ :=
  match fleschResult with
  | Except.ok s => s
  | Except.error _ => 0

/-- Tokens of `_extract_keywords`: `re.findall(r"\b\w{3,}\b",
content.lower())` — maximal word-character runs of length at least 3. -/
def wordTokensMin3 (content : String) : List String :=
  ((runsOf isWordChar (pyLower content)).map (fun r => String.mk r)).filter
    (fun w => 3 ≤ w.length)

/-- The stop-word-filtered token list of `_extract_keywords`. -/
def filteredTokens (content language : String) : List String :=
  (wordTokensMin3 content).filter (fun w => w ∉ stop_words language)

/-- The `keywords` list of `_extract_keywords`:
`Counter(filtered_words).most_common(20)` keys — distinct tokens in first
occurrence order, stably sorted by descending frequency, truncated to 20. -/
def extract_keywords_list (content language : String) : List String :=
  let filtered := filteredTokens content language
  (sortByCountDesc (fun w => filtered.count w) (dedupFirst filtered)).take 20

/-- Keyword metrics dictionary entries produced by `_extract_keywords`. -/
structure KeywordMetrics where
  keywords : List String
  keyword_density : List (String × ℚ)
  keyword_count : Nat
deriving DecidableEq

/-- `ArticleQualityChecker._extract_keywords` with its `try/except`: on an
internal exception (hook `Except.error`) every field degrades to
zero/empty; otherwise keywords, density (over the filtered count) and the
keyword count are computed. -/
def extract_keywords (content language : String) (hook : Except String Unit) :
    KeywordMetrics :=
  match hook with
  | Except.error _ => { keywords := [], keyword_density := [], keyword_count := 0 }
  | Except.ok _ =>
    let filtered := filteredTokens content language
    let kws := extract_keywords_list content language
    { keywords := kws
      keyword_density :=
        kws.map (fun w => (w, (filtered.count w : ℚ) / (filtered.length : ℚ)))
      keyword_count := kws.length }

/-- One entry of the `error_messages` list of `comprehensive_check`.  The
source builds Russian f-strings; the embedding keeps the violated threshold
and the offending metric, which is the content of each message. -/
inductive QCError where
  | tooShort (wc minWc : Nat)
  | lowReadability (score minScore : ℚ)
  | fewHeadings (hc minH : Nat)
  | fewParagraphs (pc minP : Nat)
deriving DecidableEq

/-- The metrics dictionary assembled by `comprehensive_check` (checked
fields). -/
structure QCMetrics where
  word_count : Nat
  sentence_count : Nat
  avg_sentence_length : ℚ
  paragraphs_count : Nat
  headings_count : Nat
  has_sufficient_length : Bool
  readability_score : ℚ
  has_good_readability : Bool
  keywords : List String
  keyword_density : List (String × ℚ)
  keyword_count : Nat
  has_good_structure : Bool
  has_enough_paragraphs : Bool
  errors : List QCError
deriving DecidableEq

/-- `ArticleQualityChecker.comprehensive_check`: structure analysis, the
length check, readability, keyword extraction, the structural checks, the
error list built in exactly this order, and the final verdict
`all([...])` over the four flags.  The outer `try/except` (which would
return `(False, {"errors": [...]})`) is unreachable: every step of the
embedding is total. -/
def comprehensive_check (content language : String)
    (fleschResult : Except String ℚ) (kwHook : Except String Unit) :
    Bool × QCMetrics :=
  let s := analyze_structure content
  let lenErrs : List QCError :=
    if s.word_count < min_word_count then [QualityChecker.QCError.tooShort s.word_count min_word_count]
    else []
  let hasLen : Bool := min_word_count ≤ s.word_count
  let score := analyze_readability fleschResult
  let readErrs : List QCError :=
    if score < min_readability then [QualityChecker.QCError.lowReadability score min_readability]
    else []
  let hasRead : Bool := min_readability ≤ score
  let kw := extract_keywords content language kwHook
  let headErrs : List QCError :=
    if s.headings_count < min_headings then [QualityChecker.QCError.fewHeadings s.headings_count min_headings]
    else []
  let hasStruct : Bool := min_headings ≤ s.headings_count
  let paraErrs : List QCError :=
    if s.paragraphs_count < min_paragraphs then
      [QualityChecker.QCError.fewParagraphs s.paragraphs_count min_paragraphs]
    else []
  let hasPara : Bool := min_paragraphs ≤ s.paragraphs_count
  let passed := hasLen && hasRead && hasStruct && hasPara
  (passed,
    { word_count := s.word_count
      sentence_count := s.sentence_count
      avg_sentence_length := s.avg_sentence_length
      paragraphs_count := s.paragraphs_count
      headings_count := s.headings_count
      has_sufficient_length := hasLen
      readability_score := score
      has_good_readability := hasRead
      keywords := kw.keywords
      keyword_density := kw.keyword_density
      keyword_count := kw.keyword_count
      has_good_structure := hasStruct
      has_enough_paragraphs := hasPara
      errors := lenErrs ++ readErrs ++ headErrs ++ paraErrs })

end QualityChecker

namespace Retry

/-! ## Retry loops

`LanguageModelService.generate_text` (src/src/services/lm_service.py) and
`ArticleGenerator.call_lm_studio_with_retry` (src/main.py) both run
`for attempt in range(max_retries)` around one HTTP call.  What the call
does on the `i`-th iteration is external; it enters the embedding as a
function from the attempt index to an outcome.  Both loops are instances of
`retryLoop`, differing only in what counts as success and in which outcome
aborts the loop (`break`). -/

/-- Outcome of one generation attempt, as seen by the Python `try` body:
an HTTP response (status plus extracted choice content, `none` when the
`choices` structure is missing or malformed), or one of the exception
classes the handlers distinguish. -/
inductive LMOutcome where
  | response (status : Nat) (content : Option String)
  | timeoutErr
  | connectionErr
  | requestErr
  | otherErr
deriving DecidableEq

/-- What a run of a retry loop did: the returned value, how many attempts
were made, and the sequence of backoff waits (in seconds) in order. -/
structure RetryTrace where
  result : Option String
  attempts : Nat
  waits : List Nat
deriving DecidableEq

/-- Success test of `generate_text`: status 200 and a non-empty extracted
content (`if content:` — Python truthiness rejects `None` and `""`). -/
def lmSuccess : LMOutcome → Option String
  | LMOutcome.response status (some c) =>
    if status = 200 ∧ c ≠ "" then some c else none
  | _ => none

/-- Success test of `call_lm_studio_with_retry`: status 200 with a present
`choices[0]["message"]["content"]` is returned as-is (even empty). -/
def mainSuccess : LMOutcome → Option String
  | LMOutcome.response status (some c) => if status = 200 then some c else none
  | _ => none

/-- Fatal test of `call_lm_studio_with_retry`: `requests.exceptions.ConnectionError`
hits `break`.  `generate_text` has no fatal outcome (all its handlers fall
through to the backoff). -/
def mainFatal : LMOutcome → Bool
  | LMOutcome.connectionErr => true
  | _ => false

/-- The common retry loop: `i` is the current 0-based attempt index, `fuel`
the number of iterations left out of `max_retries`.  On success return
immediately; on a fatal outcome `break` out (skipping the backoff); on any
other failure wait `2 ** attempt` seconds — but only when this is not the
last iteration (`if attempt < max_retries - 1`) — and go round again.
Exhaustion returns `None`. -/
def retryLoop (succ : LMOutcome → Option String) (fatal : LMOutcome → Bool)
    (att : Nat → LMOutcome) (i : Nat) : Nat → RetryTrace
  | 0 => { result := none, attempts := 0, waits := [] }
  | fuel + 1 =>
    match succ (att i) with
    | some c => { result := some c, attempts := 1, waits := [] }
    | none =>
      if fatal (att i) then { result := none, attempts := 1, waits := [] }
      else
        let rest := retryLoop succ fatal att (i + 1) fuel
        { result := rest.result
          attempts := rest.attempts + 1
          waits := (if 0 < fuel then [2 ^ i] else []) ++ rest.waits }

/-- `LanguageModelService.generate_text` as a trace over abstract attempt
outcomes.  Every exception class is caught and falls through to the
backoff; the loop never propagates an exception and ends in `return None`. -/
def generate_text (att : Nat → LMOutcome) (maxRetries : Nat) : RetryTrace :=
  retryLoop lmSuccess (fun _ => false) att 0 maxRetries

/-- `ArticleGenerator.call_lm_studio_with_retry` as a trace over abstract
attempt outcomes: identical loop, except that a `ConnectionError` executes
`break` (and the function then falls through to `return None`). -/
def call_lm_studio_with_retry (att : Nat → LMOutcome) (maxRetries : Nat) : RetryTrace :=
  retryLoop mainSuccess mainFatal att 0 maxRetries

end Retry

/-! ## Properties of the retry loops (claims C2, C3, C8) -/

theorem retryLoop_all_fail (succ : Retry.LMOutcome → Option String)
    (att : Nat → Retry.LMOutcome) (h : ∀ n, succ (att n) = none) :
    ∀ fuel i, (Retry.retryLoop succ (fun _ => false) att i fuel).result = none ∧
      (Retry.retryLoop succ (fun _ => false) att i fuel).attempts = fuel := by
  intro fuel
  induction fuel with
  | zero => intro i; exact ⟨rfl, rfl⟩
  | succ f ih =>
    intro i
    simp only [Retry.retryLoop, h i]
    exact ⟨(ih (i + 1)).1, by simp [(ih (i + 1)).2]⟩

theorem retryLoop_attempts_pos (succ : Retry.LMOutcome → Option String)
    (fatal : Retry.LMOutcome → Bool) (att : Nat → Retry.LMOutcome) (i f : Nat) :
    0 < (Retry.retryLoop succ fatal att i (f + 1)).attempts := by
  simp only [Retry.retryLoop]
  cases succ (att i) with
  | some c => simp
  | none =>
    by_cases hf : fatal (att i) = true <;> simp [hf]

theorem retryLoop_waits (succ : Retry.LMOutcome → Option String)
    (fatal : Retry.LMOutcome → Bool) (att : Nat → Retry.LMOutcome) :
    ∀ fuel i, (Retry.retryLoop succ fatal att i fuel).waits =
      (List.range ((Retry.retryLoop succ fatal att i fuel).attempts - 1)).map
        (fun k => 2 ^ (i + k)) := by
  intro fuel
  induction fuel with
  | zero => intro i; simp [Retry.retryLoop]
  | succ f ih =>
    intro i
    simp only [Retry.retryLoop]
    cases succ (att i) with
    | some c => simp
    | none =>
      by_cases hf : fatal (att i) = true
      · simp [hf]
      · simp only [hf]
        cases f with
        | zero => simp [Retry.retryLoop]
        | succ f2 =>
          have hpos := retryLoop_attempts_pos succ fatal att (i + 1) f2
          obtain ⟨m, hm⟩ : ∃ m,
              (Retry.retryLoop succ fatal att (i + 1) (f2 + 1)).attempts = m + 1 :=
            ⟨(Retry.retryLoop succ fatal att (i + 1) (f2 + 1)).attempts - 1, by omega⟩
          rw [ih (i + 1), hm]
          simp only [Bool.false_eq_true, if_false, Nat.add_sub_cancel, Nat.zero_lt_succ,
            if_pos, List.cons_append, List.nil_append, List.range_succ_eq_map,
            List.map_cons, List.map_map, Nat.add_zero, pow_zero, List.cons.injEq,
            true_and]
          exact List.map_congr_left (fun a ha => by
            have h3 : i + 1 + a = i + (a + 1) := by omega
            simp [Function.comp, h3])

/-- C2: if every attempt fails (for instance, the backend always times
out), `generate_text` makes exactly `maxRetries` attempts and returns
`None`.  The loop catches `requests.RequestException` and `Exception`, so
every failure mode falls through to the retry path and the embedding is a
total function: no exception reaches the caller. -/
theorem generate_text_retry_budget (att : Nat → Retry.LMOutcome) (maxRetries : Nat)
    (hpos : 0 < maxRetries) (hfail : ∀ n, Retry.lmSuccess (att n) = none) :
    (Retry.generate_text att maxRetries).result = none ∧
    (Retry.generate_text att maxRetries).attempts = maxRetries :=
  retryLoop_all_fail Retry.lmSuccess att hfail maxRetries 0

theorem generate_text_retry_budget_witness :
    (Retry.generate_text (fun _ => Retry.LMOutcome.timeoutErr) 3).result = none ∧
    (Retry.generate_text (fun _ => Retry.LMOutcome.timeoutErr) 3).attempts = 3 :=
  generate_text_retry_budget (fun _ => Retry.LMOutcome.timeoutErr) 3 (by decide)
    (fun _ => rfl)

/-- C3: if the first attempt raises a connection-level error
(`requests.exceptions.ConnectionError`), the retry orchestrator
`call_lm_studio_with_retry` executes `break`: exactly one attempt, no
backoff wait, and the function returns `None`. -/
theorem call_lm_studio_connection_short_circuit (att : Nat → Retry.LMOutcome)
    (maxRetries : Nat) (hpos : 0 < maxRetries)
    (hconn : att 0 = Retry.LMOutcome.connectionErr) :
    Retry.call_lm_studio_with_retry att maxRetries =
      { result := none, attempts := 1, waits := [] } := by
  obtain ⟨f, rfl⟩ : ∃ f, maxRetries = f + 1 := ⟨maxRetries - 1, by omega⟩
  simp [Retry.call_lm_studio_with_retry, Retry.retryLoop, hconn, Retry.mainSuccess,
    Retry.mainFatal]

theorem call_lm_studio_connection_short_circuit_witness :
    Retry.call_lm_studio_with_retry (fun _ => Retry.LMOutcome.connectionErr) 3 =
      { result := none, attempts := 1, waits := [] } :=
  call_lm_studio_connection_short_circuit (fun _ => Retry.LMOutcome.connectionErr) 3
    (by decide) rfl

/-- C8: in any run of either retry loop the backoff waits are exactly
`2 ^ 0, 2 ^ 1, …` for the failed attempts with 0-based indices
`0 … attempts - 2` — that is, `2 ^ i` after every failed attempt `i` that
was neither the last attempt nor a fatal connection abort — and there is no
wait after the final attempt (the wait list has length `attempts - 1`). -/
theorem retry_backoff_waits (att : Nat → Retry.LMOutcome) (maxRetries : Nat) :
    (Retry.generate_text att maxRetries).waits =
      (List.range ((Retry.generate_text att maxRetries).attempts - 1)).map
        (fun k => 2 ^ k) ∧
    (Retry.call_lm_studio_with_retry att maxRetries).waits =
      (List.range ((Retry.call_lm_studio_with_retry att maxRetries).attempts - 1)).map
        (fun k => 2 ^ k) := by
  constructor
  · have h := retryLoop_waits Retry.lmSuccess (fun _ => false) att maxRetries 0
    simpa [Retry.generate_text] using h
  · have h := retryLoop_waits Retry.mainSuccess Retry.mainFatal att maxRetries 0
    simpa [Retry.call_lm_studio_with_retry] using h

/-! ## Readability properties (claims C4, C9) and the short-text cutoff (C10) -/

theorem readabilityFormula_nonneg (a b c : ℚ) (n : Nat) :
    0 ≤ TextAnalyzer.readabilityFormula a b c n :=
  le_max_left 0 _

theorem readabilityFormula_le_ten (a b c : ℚ) (n : Nat) :
    TextAnalyzer.readabilityFormula a b c n ≤ 10 :=
  max_le (by norm_num) (min_le_left 10 _)

/-- C4: for every input text the readability score lies in `[0, 10]`; when
the text has no sentences or no words the score is exactly `0`.  The
embedded `_calculate_readability` is a total function (the source wraps the
body in a `try/except` returning `0.0`), so no exception reaches the
caller. -/
theorem calculate_readability_range (text : String) :
    0 ≤ TextAnalyzer.calculate_readability text ∧
    TextAnalyzer.calculate_readability text ≤ 10 ∧
    ((sentenceSegs text = [] ∨ pySplit text.data = []) →
      TextAnalyzer.calculate_readability text = 0) := by
  unfold TextAnalyzer.calculate_readability
  by_cases h : sentenceSegs text = [] ∨ pySplit text.data = []
  · simp [h]
  · rw [if_neg h]
    exact ⟨readabilityFormula_nonneg _ _ _ _, readabilityFormula_le_ten _ _ _ _,
      fun hcontra => absurd hcontra h⟩

theorem calculate_readability_range_witness :
    TextAnalyzer.calculate_readability "" = 0 ∧
    0 ≤ TextAnalyzer.calculate_readability "" := by
  refine ⟨(calculate_readability_range "").2.2 (Or.inl (by decide)),
    (calculate_readability_range "").1⟩

/-- C9: the readability formula of `_calculate_readability` is monotonically
non-increasing in each raw complexity input — average sentence length,
average word length, complex-word fraction — with the other two inputs and
the sentence count held fixed. -/
theorem readabilityFormula_antitone (a a2 b b2 c c2 : ℚ) (n : Nat) :
    (a ≤ a2 → TextAnalyzer.readabilityFormula a2 b c n ≤
      TextAnalyzer.readabilityFormula a b c n) ∧
    (b ≤ b2 → TextAnalyzer.readabilityFormula a b2 c n ≤
      TextAnalyzer.readabilityFormula a b c n) ∧
    (c ≤ c2 → TextAnalyzer.readabilityFormula a b c2 n ≤
      TextAnalyzer.readabilityFormula a b c n) := by
  unfold TextAnalyzer.readabilityFormula
  refine ⟨fun h => ?_, fun h => ?_, fun h => ?_⟩ <;>
    
    refine max_le_max le_rfl (min_le_min le_rfl ?_) <;>
    [ have hs : max 0 (10 - a2 / 5) ≤ max 0 (10 - a / 5) :=
        max_le_max le_rfl (by linarith);
      have hs : max 0 (10 - b2) ≤ max 0 (10 - b) :=
        max_le_max le_rfl (by linarith);
      have hs : max 0 (10 - c2 * 30) ≤ max 0 (10 - c * 30) :=
        max_le_max le_rfl (by linarith)] <;>
    by_cases hn : 5 < n <;> simp only [hn, if_true, if_false] <;> linarith

theorem readabilityFormula_antitone_witness :
    (TextAnalyzer.readabilityFormula 6 3 (1/10) 7 ≤
      TextAnalyzer.readabilityFormula 5 3 (1/10) 7) ∧
    (TextAnalyzer.readabilityFormula 5 4 (1/10) 7 ≤
      TextAnalyzer.readabilityFormula 5 3 (1/10) 7) ∧
    (TextAnalyzer.readabilityFormula 5 3 (2/10) 7 ≤
      TextAnalyzer.readabilityFormula 5 3 (1/10) 7) :=
  ⟨(readabilityFormula_antitone 5 6 3 3 (1/10) (1/10) 7).1 (by norm_num),
   (readabilityFormula_antitone 5 5 3 4 (1/10) (1/10) 7).2.1 (by norm_num),
   (readabilityFormula_antitone 5 5 3 3 (1/10) (2/10) 7).2.2 (by norm_num)⟩

/-- C10: `analyze_text` on a text of fewer than 300 whitespace-delimited
words (after optional HTML stripping) skips every analysis and returns a
result with readability score `0`, empty keyword density and empty overused
words. -/
theorem analyze_text_short (text : String) (is_html : Bool)
    (h : (pySplit (if is_html then TextAnalyzer.clean_html text else text).data).length
      < 300) :
    TextAnalyzer.analyze_text text is_html =
      { readability_score := 0, keyword_density := [], overused_words := [] } := by
  unfold TextAnalyzer.analyze_text
  simp only [TextAnalyzer.min_word_count]
  rw [if_pos]
  exact h

theorem analyze_text_short_witness :
    TextAnalyzer.analyze_text "hello world" false =
      { readability_score := 0, keyword_density := [], overused_words := [] } :=
  analyze_text_short "hello world" false (by decide)

/-! ## Membership and order of the insertion-ordered dictionary model -/

theorem mem_dedupFirstAux (x : String) :
    ∀ (l seen : List String), x ∈ dedupFirstAux seen l ↔ x ∈ l ∧ x ∉ seen := by
  intro l
  induction l with
  | nil => intro seen; simp [dedupFirstAux]
  | cons a l ih =>
    intro seen
    by_cases ha : a ∈ seen
    · simp only [dedupFirstAux, if_pos ha, ih]
      constructor
      · exact fun h => ⟨List.mem_cons_of_mem a h.1, h.2⟩
      · rintro ⟨hx, hs⟩
        rcases List.mem_cons.mp hx with rfl | hx
        · exact absurd ha hs
        · exact ⟨hx, hs⟩
    · simp only [dedupFirstAux, if_neg ha, List.mem_cons, ih]
      constructor
      · rintro (rfl | ⟨hx, hs⟩)
        · exact ⟨Or.inl rfl, ha⟩
        · exact ⟨Or.inr hx, fun hm => hs (Or.inr hm)⟩
      · rintro ⟨rfl | hx, hs⟩
        · exact Or.inl rfl
        · by_cases hxa : x = a
          · exact Or.inl hxa
          · exact Or.inr ⟨hx, by simp [hxa, hs]⟩

theorem mem_dedupFirst (x : String) (l : List String) :
    x ∈ dedupFirst l ↔ x ∈ l := by
  simp [dedupFirst, mem_dedupFirstAux]

theorem firstIdx_cons_of_ne (w a : String) (l : List String) (h : a ≠ w) :
    firstIdx w (a :: l) = firstIdx w l + 1 := by
  simp [firstIdx, h]

theorem pairwise_dedupFirstAux :
    ∀ (l seen : List String),
      (dedupFirstAux seen l).Pairwise (fun x y => firstIdx x l < firstIdx y l) := by
  intro l
  induction l with
  | nil => intro seen; simp [dedupFirstAux]
  | cons a l ih =>
    intro seen
    by_cases ha : a ∈ seen
    · simp only [dedupFirstAux, if_pos ha]
      refine (ih seen).imp_of_mem ?_
      intro x y hx hy hr
      have hxa : a ≠ x := fun he =>
        ((mem_dedupFirstAux x l seen).mp hx).2 (by rw [← he]; exact ha)
      have hya : a ≠ y := fun he =>
        ((mem_dedupFirstAux y l seen).mp hy).2 (by rw [← he]; exact ha)
      rw [firstIdx_cons_of_ne x a l hxa, firstIdx_cons_of_ne y a l hya]
      omega
    · simp only [dedupFirstAux, if_neg ha]
      rw [List.pairwise_cons]
      constructor
      · intro y hy
        have hya : a ≠ y := fun he =>
          ((mem_dedupFirstAux y l (a :: seen)).mp hy).2
            (by rw [← he]; exact List.mem_cons_self a seen)
        rw [firstIdx_cons_of_ne y a l hya]
        simp [firstIdx]
      · refine (ih (a :: seen)).imp_of_mem ?_
        intro x y hx hy hr
        have hxa : a ≠ x := fun he =>
          ((mem_dedupFirstAux x l (a :: seen)).mp hx).2
            (by rw [← he]; exact List.mem_cons_self a seen)
        have hya : a ≠ y := fun he =>
          ((mem_dedupFirstAux y l (a :: seen)).mp hy).2
            (by rw [← he]; exact List.mem_cons_self a seen)
        rw [firstIdx_cons_of_ne x a l hxa, firstIdx_cons_of_ne y a l hya]
        omega

theorem pairwise_dedupFirst (l : List String) :
    (dedupFirst l).Pairwise (fun x y => firstIdx x l < firstIdx y l) :=
  pairwise_dedupFirstAux l []

theorem mem_insertByCountDesc (cnt : String → Nat) (a x : String) :
    ∀ l : List String, x ∈ insertByCountDesc cnt a l ↔ x = a ∨ x ∈ l := by
  intro l
  induction l with
  | nil => simp [insertByCountDesc]
  | cons b l ih =>
    by_cases hb : cnt b < cnt a
    · simp [insertByCountDesc, hb]
    · simp only [insertByCountDesc, if_neg hb, List.mem_cons, ih]
      tauto

theorem pairwise_insertByCountDesc (cnt : String → Nat) (Q : String → String → Prop)
    (a : String) :
    ∀ l : List String,
      l.Pairwise (fun x y => cnt y < cnt x ∨ (cnt y = cnt x ∧ Q x y)) →
      (∀ b ∈ l, Q b a) →
      (insertByCountDesc cnt a l).Pairwise
        (fun x y => cnt y < cnt x ∨ (cnt y = cnt x ∧ Q x y)) := by
  intro l
  induction l with
  | nil => intro _ _; simp [insertByCountDesc]
  | cons b l ih =>
    intro hp hQ
    rw [List.pairwise_cons] at hp
    by_cases hb : cnt b < cnt a
    · simp only [insertByCountDesc, if_pos hb]
      rw [List.pairwise_cons]
      refine ⟨?_, List.pairwise_cons.mpr hp⟩
      intro y hy
      rcases List.mem_cons.mp hy with rfl | hy
      · exact Or.inl hb
      · rcases hp.1 y hy with hlt | ⟨heq, _⟩
        · exact Or.inl (lt_trans hlt hb)
        · exact Or.inl (heq ▸ hb)
    · simp only [insertByCountDesc, if_neg hb]
      rw [List.pairwise_cons]
      constructor
      · intro y hy
        rcases (mem_insertByCountDesc cnt a y l).mp hy with rfl | hy
        · rcases lt_or_eq_of_le (not_lt.mp hb) with hlt | heq
          · exact Or.inl hlt
          · exact Or.inr ⟨heq, hQ b (List.mem_cons_self b l)⟩
        · exact hp.1 y hy
      · exact ih hp.2 (fun x hx => hQ x (List.mem_cons_of_mem b hx))

theorem mem_foldl_insertByCountDesc (cnt : String → Nat) (x : String) :
    ∀ (rest acc : List String),
      x ∈ rest.foldl (fun acc a => insertByCountDesc cnt a acc) acc ↔
        x ∈ acc ∨ x ∈ rest := by
  intro rest
  induction rest with
  | nil => intro acc; simp
  | cons a rest ih =>
    intro acc
    simp only [List.foldl_cons, ih, mem_insertByCountDesc, List.mem_cons]
    tauto

theorem mem_sortByCountDesc (cnt : String → Nat) (x : String) (l : List String) :
    x ∈ sortByCountDesc cnt l ↔ x ∈ l := by
  simp [sortByCountDesc, mem_foldl_insertByCountDesc]

theorem pairwise_foldl_insertByCountDesc (cnt : String → Nat) (Q : String → String → Prop) :
    ∀ (rest acc : List String),
      acc.Pairwise (fun x y => cnt y < cnt x ∨ (cnt y = cnt x ∧ Q x y)) →
      (∀ b ∈ acc, ∀ x ∈ rest, Q b x) →
      rest.Pairwise Q →
      (rest.foldl (fun acc a => insertByCountDesc cnt a acc) acc).Pairwise
        (fun x y => cnt y < cnt x ∨ (cnt y = cnt x ∧ Q x y)) := by
  intro rest
  induction rest with
  | nil => intro acc h _ _; simpa using h
  | cons a rest ih =>
    intro acc hacc hcross hQ
    rw [List.pairwise_cons] at hQ
    simp only [List.foldl_cons]
    refine ih (insertByCountDesc cnt a acc) ?_ ?_ hQ.2
    · exact pairwise_insertByCountDesc cnt Q a acc hacc
        (fun b hb => hcross b hb a (List.mem_cons_self a rest))
    · intro b hb x hx
      rcases (mem_insertByCountDesc cnt a b acc).mp hb with rfl | hb
      · exact hQ.1 x hx
      · exact hcross b hb x (List.mem_cons_of_mem a hx)

theorem pairwise_sortByCountDesc (cnt : String → Nat) (Q : String → String → Prop)
    (l : List String) (hl : l.Pairwise Q) :
    (sortByCountDesc cnt l).Pairwise
      (fun x y => cnt y < cnt x ∨ (cnt y = cnt x ∧ Q x y)) :=
  pairwise_foldl_insertByCountDesc cnt Q l [] (by simp) (by simp) hl

/-! ## Overuse detection (claim C5) -/

/-- C5 counterexample: in the text
`"abcd a a a a a a a a a a a a a a a a a a a a"` the token `abcd` is 1 of
exactly 1 filtered (length-greater-3) token, so its frequency divided by the
filtered-token count is 1 — far above the 0.05 threshold — yet
`_find_overused_words` does not flag it, because the code compares against
`total_words * 0.05` with `total_words` counting all 21 tokens.  This
refutes the claim's denominator (the spec's "total-filtered-token-count"). -/
theorem find_overused_filtered_density_cex :
    (5/100 : ℚ) < TextAnalyzer.specFilteredDensity
        "abcd a a a a a a a a a a a a a a a a a a a a" "abcd" ∧
    3 < ("abcd" : String).length ∧
    "abcd" ∉ TextAnalyzer.find_overused_words
        "abcd a a a a a a a a a a a a a a a a a a a a" := by
  have hfil : (TextAnalyzer.cleanTokens
      "abcd a a a a a a a a a a a a a a a a a a a a").filter
        (fun u => 3 < u.length) = ["abcd"] := by decide
  have hlen : (TextAnalyzer.cleanTokens
      "abcd a a a a a a a a a a a a a a a a a a a a").length = 21 := by decide
  have hcnt : (TextAnalyzer.cleanTokens
      "abcd a a a a a a a a a a a a a a a a a a a a").count "abcd" = 1 := by decide
  refine ⟨?_, by decide, ?_⟩
  · simp only [TextAnalyzer.specFilteredDensity]
    rw [hfil]
    norm_num
  · simp only [TextAnalyzer.find_overused_words]
    rw [hfil, hlen]
    have hded : dedupFirst ["abcd"] = ["abcd"] := by decide
    rw [hded, if_pos (by norm_num : (0 : ℕ) < 21), List.filter_cons, List.filter_nil]
    rw [hcnt]
    norm_num

/-- C5 amended: `_find_overused_words` flags exactly the tokens of length
greater than 3 whose frequency strictly exceeds 5 percent of the *total*
cleaned token count (short tokens included in the denominator); a token
exactly at that threshold is excluded by the strict comparison. -/
theorem find_overused_words_mem_iff (text w : String) :
    w ∈ TextAnalyzer.find_overused_words text ↔
      (w ∈ TextAnalyzer.cleanTokens text ∧ 3 < w.length ∧
        ((TextAnalyzer.cleanTokens text).length : ℚ) * (5/100) <
          ((TextAnalyzer.cleanTokens text).count w : ℚ)) := by
  unfold TextAnalyzer.find_overused_words
  by_cases h : 0 < (TextAnalyzer.cleanTokens text).length
  · rw [if_pos h]
    simp only [List.mem_filter, mem_dedupFirst, decide_eq_true_eq]
    tauto
  · rw [if_neg h]
    have hnil : TextAnalyzer.cleanTokens text = [] :=
      List.length_eq_zero.mp (by omega)
    simp [hnil]

/-! ## Keyword extraction (claim C6) -/

/-- C6 counterexample: `_extract_keywords` tokenises with
`re.findall(r"\b\w{3,}\b", ...)`, which keeps tokens of length exactly 3;
on `"cat cat cat cat"` the extracted keyword list contains `cat`, a token
of length `≤ 3`, refuting the claim that tokens of length `≤ 3` are
discarded. -/
theorem extract_keywords_len3_cex :
    "cat" ∈ QualityChecker.extract_keywords_list "cat cat cat cat" "ru" ∧
    ("cat" : String).length ≤ 3 := by
  refine ⟨by decide, by decide⟩

/-- C6 amended: the keyword list has length at most 20, is ordered by
strictly decreasing frequency with ties broken by first occurrence among
the filtered tokens, and every keyword has length at least 3 (not: greater
than 3) and is outside the language's stop-word set. -/
theorem extract_keywords_props (content language : String) :
    (QualityChecker.extract_keywords_list content language).length ≤ 20 ∧
    List.Pairwise (fun a b =>
      (QualityChecker.filteredTokens content language).count b <
        (QualityChecker.filteredTokens content language).count a ∨
      ((QualityChecker.filteredTokens content language).count b =
        (QualityChecker.filteredTokens content language).count a ∧
        firstIdx a (QualityChecker.filteredTokens content language) <
          firstIdx b (QualityChecker.filteredTokens content language)))
      (QualityChecker.extract_keywords_list content language) ∧
    ∀ w ∈ QualityChecker.extract_keywords_list content language,
      3 ≤ w.length ∧ w ∉ QualityChecker.stop_words language := by
  refine ⟨?_, ?_, ?_⟩
  · exact List.length_take_le 20 _
  · unfold QualityChecker.extract_keywords_list
    refine List.Pairwise.sublist (List.take_sublist 20 _) ?_
    exact pairwise_sortByCountDesc _ _ _ (pairwise_dedupFirst _)
  · intro w hw
    unfold QualityChecker.extract_keywords_list at hw
    have h1 := (List.take_sublist 20 _).subset hw
    have h2 := (mem_dedupFirst w _).mp ((mem_sortByCountDesc _ w _).mp h1)
    unfold QualityChecker.filteredTokens at h2
    rw [List.mem_filter] at h2
    have h3 := h2.1
    unfold QualityChecker.wordTokensMin3 at h3
    rw [List.mem_filter] at h3
    exact ⟨by simpa using h3.2, by simpa using h2.2⟩

theorem extract_keywords_props_witness :
    3 ≤ ("dogs" : String).length ∧
    "dogs" ∉ QualityChecker.stop_words "ru" ∧
    (QualityChecker.extract_keywords_list "dogs dogs" "ru").length ≤ 20 :=
  ⟨((extract_keywords_props "dogs dogs" "ru").2.2 "dogs" (by decide)).1,
   ((extract_keywords_props "dogs dogs" "ru").2.2 "dogs" (by decide)).2,
   (extract_keywords_props "dogs dogs" "ru").1⟩

/-! ## The comprehensive quality check (claims C1, C7) -/

/-- C1: `comprehensive_check` passes exactly when all four configured
thresholds are met by the corresponding computed metrics (word count at
least 500, readability at least 5, headings at least 3, paragraphs at least
5), and its error list holds exactly one entry per violated threshold, in
the order length, readability, headings, paragraphs.  No overuse error is
ever produced by this function, so the claimed trailing overuse position is
vacuously respected. -/
theorem comprehensive_check_passed_iff (content language : String)
    (fl : Except String ℚ) (kw : Except String Unit) :
    ((QualityChecker.comprehensive_check content language fl kw).1 = true ↔
      (500 ≤ (QualityChecker.comprehensive_check content language fl kw).2.word_count ∧
        (5 : ℚ) ≤
          (QualityChecker.comprehensive_check content language fl kw).2.readability_score ∧
        3 ≤ (QualityChecker.comprehensive_check content language fl kw).2.headings_count ∧
        5 ≤ (QualityChecker.comprehensive_check content language fl kw).2.paragraphs_count)) ∧
    (QualityChecker.comprehensive_check content language fl kw).2.errors =
      (if (QualityChecker.comprehensive_check content language fl kw).2.word_count < 500 then
        [QualityChecker.QCError.tooShort
          (QualityChecker.comprehensive_check content language fl kw).2.word_count 500]
      else []) ++
      (if (QualityChecker.comprehensive_check content language fl kw).2.readability_score
          < 5 then
        [QualityChecker.QCError.lowReadability
          (QualityChecker.comprehensive_check content language fl kw).2.readability_score 5]
      else []) ++
      (if (QualityChecker.comprehensive_check content language fl kw).2.headings_count
          < 3 then
        [QualityChecker.QCError.fewHeadings
          (QualityChecker.comprehensive_check content language fl kw).2.headings_count 3]
      else []) ++
      (if (QualityChecker.comprehensive_check content language fl kw).2.paragraphs_count
          < 5 then
        [QualityChecker.QCError.fewParagraphs
          (QualityChecker.comprehensive_check content language fl kw).2.paragraphs_count 5]
      else []) := by
  simp only [QualityChecker.comprehensive_check, QualityChecker.min_word_count,
    QualityChecker.min_readability, QualityChecker.min_headings,
    QualityChecker.min_paragraphs, Bool.and_eq_true, decide_eq_true_eq]
  exact ⟨by tauto, trivial⟩

/-- C7 counterexample: run `comprehensive_check` on the empty article with a
successful readability result (Flesch 10) while keyword extraction raises
internally.  The keyword contribution is degraded to the empty list, but the
error list holds exactly the three threshold entries (length, headings,
paragraphs) — no entry of any kind records the keyword-extraction failure,
refuting the claim that an explanatory entry is recorded for the failed
sub-analysis. -/
theorem comprehensive_check_keyword_failure_cex :
    (QualityChecker.comprehensive_check "" "ru" (Except.ok 10)
      (Except.error "boom")).2.keywords = [] ∧
    (QualityChecker.comprehensive_check "" "ru" (Except.ok 10)
      (Except.error "boom")).2.errors =
      [QualityChecker.QCError.tooShort 0 500, QualityChecker.QCError.fewHeadings 0 3,
        QualityChecker.QCError.fewParagraphs 0 5] := by
  have hwc : (QualityChecker.analyze_structure "").word_count = 0 := by decide
  have hhc : (QualityChecker.analyze_structure "").headings_count = 0 := by decide
  have hpc : (QualityChecker.analyze_structure "").paragraphs_count = 0 := by decide
  simp only [QualityChecker.comprehensive_check, QualityChecker.min_word_count,
    QualityChecker.min_readability, QualityChecker.min_headings,
    QualityChecker.min_paragraphs, QualityChecker.analyze_readability,
    QualityChecker.extract_keywords, hwc, hhc, hpc]
  norm_num

/-- C7 amended: `comprehensive_check` always returns a `(passed, metrics)`
pair (the embedding is total; the source catches every internal exception).
A readability failure degrades the score to `0`, which then surfaces only
through the ordinary low-readability threshold entry; a keyword-extraction
failure degrades keywords and density to empty but leaves the error list
exactly as in a normal run — no explanatory entry is recorded for it. -/
theorem comprehensive_check_degradation (content language e : String)
    (fl : Except String ℚ) (kw : Except String Unit) :
    ((QualityChecker.comprehensive_check content language (Except.error e)
        kw).2.readability_score = 0 ∧
      QualityChecker.QCError.lowReadability 0 5 ∈
        (QualityChecker.comprehensive_check content language (Except.error e)
          kw).2.errors) ∧
    ((QualityChecker.comprehensive_check content language fl
        (Except.error e)).2.keywords = [] ∧
      (QualityChecker.comprehensive_check content language fl
        (Except.error e)).2.keyword_density = [] ∧
      (QualityChecker.comprehensive_check content language fl
        (Except.error e)).2.errors =
        (QualityChecker.comprehensive_check content language fl
          (Except.ok ())).2.errors) := by
  refine ⟨⟨?_, ?_⟩, ?_, ?_, ?_⟩
  · simp [QualityChecker.comprehensive_check, QualityChecker.analyze_readability]
  · simp only [QualityChecker.comprehensive_check, QualityChecker.analyze_readability,
      QualityChecker.min_readability]
    rw [if_pos (by norm_num : (0 : ℚ) < 5)]
    simp [List.mem_append]
  · simp [QualityChecker.comprehensive_check, QualityChecker.extract_keywords]
  · simp [QualityChecker.comprehensive_check, QualityChecker.extract_keywords]
  · simp only [QualityChecker.comprehensive_check]
